import Mathlib

-- Shallow embedding of the generate/execute/judge pipeline
-- (coding_agent.py, static_evaluator.py, test.py).
-- Python strings are modelled as `List Char`; the string methods used by the
-- source (str.strip, str.upper, str.replace, str.startswith, the `in`
-- operator) are embedded as executable functions below.

/-- Whitespace test matching Python's str.strip default (ASCII whitespace). -/
def isPySpace (c : Char) : Bool :=
  c == ' ' || c == '\t' || c == '\n' || c == '\r' || c == '\x0b' || c == '\x0c'

/-- Embedding of Python `s.strip()`: drop whitespace from both ends. -/
def pyStrip (l : List Char) : List Char :=
  ((l.dropWhile isPySpace).reverse.dropWhile isPySpace).reverse

/-- Embedding of Python `s.upper()` on ASCII text. -/
def pyUpper (l : List Char) : List Char :=
  l.map Char.toUpper

/-- Embedding of Python `pat in s` (substring containment). -/
def containsSub (pat : List Char) : List Char → Bool
  | [] => pat.isPrefixOf []
  | c :: rest => pat.isPrefixOf (c :: rest) || containsSub pat rest

/-- Fuel-indexed worker for `pyReplace`; the fuel is always instantiated with
the length of the scanned list, which makes the recursion structural. -/
def replaceFuel (pat rep : List Char) : Nat → List Char → List Char
  | _, [] => []
  | 0, c :: rest => c :: rest
  | n + 1, c :: rest =>
    if !pat.isEmpty && pat.isPrefixOf (c :: rest) then
      rep ++ replaceFuel pat rep n ((c :: rest).drop pat.length)
    else
      c :: replaceFuel pat rep n rest

/-- Embedding of Python `s.replace(pat, rep)` for nonempty `pat`: left-to-right
replacement of all non-overlapping occurrences. -/
def pyReplace (s pat rep : List Char) : List Char :=
  replaceFuel pat rep s.length s

/-- The tagged opening marker `"```python"` tested by `code_generator_node`. -/
def pythonFence : List Char := "```python".data

/-- The generic fence marker `"```"`. -/
def fence : List Char := "```".data

/-- The literal token PASS whose containment the judge tests. -/
def passLit : List Char := "PASS".data

/-- The literal token FAIL, the other token of the judge contract. -/
def failLit : List Char := "FAIL".data

-- coding_agent.py, code_generator_node lines 57-64: extraction of the code
-- from the raw completion `response.content`.
/-- Embedding of the extraction transform of `code_generator_node`. -/
def extractCode (content : List Char) : List Char :=
  let code := pyStrip content
  if pythonFence.isPrefixOf code then
    pyStrip (pyReplace (pyReplace code pythonFence []) fence [])
  else if fence.isPrefixOf code then
    pyStrip (pyReplace code fence [])
  else
    code

-- static_evaluator.py: the dict returned by StaticEvaluator.evaluate.
/-- Record returned by `StaticEvaluator.evaluate` (keys pass/output/query/judgment). -/
structure EvalResult where
  pass : Bool
  output : List Char
  query : List Char
  judgment : List Char

-- static_evaluator.py lines 37-76: `judgment = response.content.strip().upper()`,
-- `passed = "PASS" in judgment`, then the result dict.  The LLM reply is the
-- `response` argument.
/-- Embedding of `StaticEvaluator.evaluate`. -/
def StaticEvaluator.evaluate (response output query : List Char) : EvalResult :=
  let judgment := pyUpper (pyStrip response)
  { pass := containsSub passLit judgment
    output := output
    query := query
    judgment := judgment }

-- test.py, run_code lines 8-38.  The environment is passed in explicitly:
-- whether the artifact file exists, and what the spawned child does.
/-- Outcome of the `subprocess.run` call: normal completion with captured
streams and a return code, a `TimeoutExpired`, or any other exception
(`except Exception as e`) carrying its message. -/
inductive SpawnOutcome where
  | completed (stdout stderr : List Char) (returncode : Int)
  | timedOut
  | faulted (message : List Char)

/-- The `(stdout, stderr, success)` tuple returned by `run_code`. -/
structure ExecResult where
  stdout : List Char
  stderr : List Char
  success : Bool

/-- Embedding of `run_code`: missing-file check first, then the child-process
outcome converted into a result tuple; every branch returns a value. -/
def run_code (codeFile : List Char) (fileExists : Bool) (outcome : SpawnOutcome) :
    ExecResult :=
  if !fileExists then
    { stdout := [], stderr := "File not found: ".data ++ codeFile, success := false }
  else
    match outcome with
    | .completed out err rc =>
      { stdout := pyStrip out, stderr := pyStrip err, success := rc == 0 }
    | .timedOut =>
      { stdout := [], stderr := "Execution timed out".data, success := false }
    | .faulted msg =>
      { stdout := [], stderr := msg, success := false }

-- coding_agent.py, AgentState and CodingAgent.generate_code lines 110-134.
/-- State dict produced by the single graph node. -/
structure AgentState where
  generated_code : List Char
  output_file : List Char

/-- The pure state update of `code_generator_node` (lines 38-69): call the LLM
(whose reply is the `response` argument) and extract the code. -/
def code_generator_node (response outputFile : List Char) : AgentState :=
  { generated_code := extractCode response, output_file := outputFile }

/-- Observable side effects performed by an operation. -/
inductive Effect where
  | fileWrite (path contents : List Char)
deriving DecidableEq

/-- Embedding of `CodingAgent.generate_code`: runs the graph (the single pure
node) and then performs the `open(output_file, "w")` write itself, before
returning.  The second component lists the side effects performed. -/
def CodingAgent.generate_code (response outputFile : List Char) :
    AgentState × List Effect :=
  let result := code_generator_node response outputFile
  (result, [Effect.fileWrite result.output_file result.generated_code])

-- test.py, main lines 41-96.
/-- The task string hard-coded in `main`. -/
def defaultTask : List Char :=
  "generate a python code to generate 10 random numbers between 1 and 100".data

/-- The artifact path hard-coded in `main`. -/
def defaultOutputFile : List Char := "test_generated_code.py".data

/-- Observable trace of one `main` run: what was written to the artifact,
whether the judge was invoked (and its verdict), whether the run ended in the
failed short-circuit, and whether the artifact file was removed at the end. -/
structure PipelineRun where
  artifactWritten : List Char
  judgeInvoked : Bool
  verdict : Option EvalResult
  failed : Bool
  artifactRemoved : Bool

/-- Embedding of `main`: generate (writing the artifact), run the artifact,
then either short-circuit on failure (cleanup, no judge) or judge the captured
stdout and clean up.  `genResponse` and `judgeResponse` are the two LLM
replies; `fileExists` and `outcome` describe the execution environment. -/
def mainRun (genResponse : List Char) (fileExists : Bool) (outcome : SpawnOutcome)
    (judgeResponse : List Char) : PipelineRun :=
  let gen := CodingAgent.generate_code genResponse defaultOutputFile
  let r := run_code defaultOutputFile fileExists outcome
  if !r.success then
    { artifactWritten := gen.1.generated_code, judgeInvoked := false,
      verdict := none, failed := true, artifactRemoved := true }
  else
    let v := StaticEvaluator.evaluate judgeResponse r.stdout defaultTask
    { artifactWritten := gen.1.generated_code, judgeInvoked := true,
      verdict := some v, failed := false, artifactRemoved := true }

-- Concrete inputs used by witnesses and counterexamples.

/-- Raw completion with a fence marker only in mid-text. -/
def rawMid : List Char := "a```b".data

/-- Raw completion consisting of a generic fenced block. -/
def rawFenced : List Char := "```\nprint(7)\n```".data

/-- Raw completion with an opening fence, a mid-text fence and a closing fence. -/
def rawMidFenced : List Char := "```\nabc```def\n```".data

/-- Raw completion with no fence marker at all. -/
def rawPlain : List Char := "print(3)".data

/-- Judge reply containing neither PASS nor FAIL. -/
def replyNeither : List Char := "no verdict".data

/-- Message of a synthetic spawn fault. -/
def boomMsg : List Char := "boom".data

/-- The backtick character. -/
def bt : Char := Char.ofNat 96

/-- Number of leading backticks of a list. -/
def leadCount : List Char → Nat
  | [] => 0
  | d :: rest => if d = bt then leadCount rest + 1 else 0

-- Helper lemmas -------------------------------------------------------------

/-- Safe-named wrapper around the library bridge between the boolean
`isPrefixOf` and the prefix relation. -/
theorem isPrefixOf_eq (l₁ l₂ : List Char) : l₁.isPrefixOf l₂ = true ↔ l₁ <+: l₂ :=
  List.isPrefixOf_iff_prefix

theorem dropWhile_head_not (p : Char → Bool) (l : List Char) :
    l.dropWhile p = [] ∨ ∃ c t, l.dropWhile p = c :: t ∧ p c = false := by
  induction l with
  | nil => exact Or.inl rfl
  | cons c rest ih =>
    cases hc : p c with
    | false => exact Or.inr ⟨c, rest, by simp [List.dropWhile_cons, hc], hc⟩
    | true => simpa [List.dropWhile_cons, hc] using ih

theorem dropWhile_cons_false {p : Char → Bool} {c : Char} {t : List Char}
    (h : p c = false) : (c :: t).dropWhile p = c :: t := by
  simp [List.dropWhile_cons, h]

theorem pyStrip_isPrefix (l : List Char) : pyStrip l <+: l.dropWhile isPySpace := by
  have h : (l.dropWhile isPySpace).reverse.dropWhile isPySpace <:+
      (l.dropWhile isPySpace).reverse := List.dropWhile_suffix isPySpace
  have h2 := List.reverse_prefix.mpr h
  simpa [pyStrip] using h2

theorem pyStrip_isInf (l : List Char) : pyStrip l <:+: l :=
  ((pyStrip_isPrefix l).isInfix).trans ((List.dropWhile_suffix isPySpace).isInfix)

theorem pyStrip_head (l : List Char) :
    pyStrip l = [] ∨ ∃ c t, pyStrip l = c :: t ∧ isPySpace c = false := by
  cases hP : pyStrip l with
  | nil => exact Or.inl rfl
  | cons c t =>
    refine Or.inr ⟨c, t, rfl, ?_⟩
    have hpre := pyStrip_isPrefix l
    rw [hP] at hpre
    rcases dropWhile_head_not isPySpace l with hA | ⟨d, u, hA, hd⟩
    · rw [hA] at hpre
      simpa using List.prefix_nil.mp hpre
    · rw [hA] at hpre
      rcases hpre with ⟨r, hr⟩
      rw [List.cons_append] at hr
      injection hr with h1 _
      rw [h1]
      exact hd

theorem pyStrip_idem (l : List Char) : pyStrip (pyStrip l) = pyStrip l := by
  rcases dropWhile_head_not isPySpace (l.dropWhile isPySpace).reverse with hZ | ⟨c, t, hZ, hc⟩
  · have hP : pyStrip l = [] := by
      show ((l.dropWhile isPySpace).reverse.dropWhile isPySpace).reverse = []
      rw [hZ]
      rfl
    rw [hP]
    rfl
  · have hP : pyStrip l = (c :: t).reverse := by
      show ((l.dropWhile isPySpace).reverse.dropWhile isPySpace).reverse = (c :: t).reverse
      rw [hZ]
    rcases pyStrip_head l with h0 | ⟨d, u, hd, hdns⟩
    · rw [h0]
      rfl
    · have e1 : (d :: u).reverse = c :: t := by
        rw [← hd, hP, List.reverse_reverse]
      rw [hd]
      show (((d :: u).dropWhile isPySpace).reverse.dropWhile isPySpace).reverse = d :: u
      rw [dropWhile_cons_false hdns, e1, dropWhile_cons_false hc, ← e1,
        List.reverse_reverse]

theorem containsSub_iff (pat s : List Char) : containsSub pat s = true ↔ pat <:+: s := by
  induction s with
  | nil =>
    show pat.isPrefixOf [] = true ↔ pat <:+: []
    rw [isPrefixOf_eq, List.prefix_nil, List.infix_nil]
  | cons c rest ih =>
    show (pat.isPrefixOf (c :: rest) || containsSub pat rest) = true ↔ pat <:+: c :: rest
    rw [Bool.or_eq_true, isPrefixOf_eq, ih, List.infix_cons_iff]

theorem fence_eq : fence = [bt, bt, bt] := by decide

theorem fence_isEmpty_eq : fence.isEmpty = false := by decide

theorem fence_length_eq : fence.length = 3 := by decide

theorem fence_isPrefix_pythonFence : fence <+: pythonFence :=
  ⟨ "python".data, by decide⟩

theorem leadCount_two_of_isPrefix {l : List Char} (h : [bt, bt] <+: l) :
    2 ≤ leadCount l := by
  rcases h with ⟨r, hr⟩
  rw [← hr, List.cons_append, List.cons_append, List.nil_append]
  simp [leadCount]

theorem isPrefix_two_of_leadCount : ∀ l : List Char, 2 ≤ leadCount l → [bt, bt] <+: l
  | [], h => by simp [leadCount] at h
  | [d], h => by
    by_cases hd : d = bt <;> simp [leadCount, hd] at h
  | d :: e :: rest, h => by
    by_cases hd : d = bt
    · by_cases he : e = bt
      · subst hd
        subst he
        exact ⟨rest, rfl⟩
      · simp [leadCount, hd, he] at h
    · simp [leadCount, hd] at h

theorem fence_isPrefix_cons {c : Char} {l : List Char} :
    fence <+: c :: l ↔ c = bt ∧ [bt, bt] <+: l := by
  rw [fence_eq]
  constructor
  · rintro ⟨r, hr⟩
    rw [List.cons_append, List.cons_append, List.cons_append, List.nil_append] at hr
    injection hr with h1 h2
    exact ⟨h1.symm, ⟨r, h2⟩⟩
  · rintro ⟨hc, ⟨r, hr⟩⟩
    subst hc
    exact ⟨r, by rw [← hr]; simp⟩

theorem replaceFuel_nil (pat rep : List Char) (n : Nat) :
    replaceFuel pat rep n [] = [] := by
  cases n <;> rfl

theorem replaceFuel_succ_cons (pat rep : List Char) (n : Nat) (c : Char)
    (rest : List Char) :
    replaceFuel pat rep (n + 1) (c :: rest) =
      if !pat.isEmpty && pat.isPrefixOf (c :: rest) then
        rep ++ replaceFuel pat rep n ((c :: rest).drop pat.length)
      else
        c :: replaceFuel pat rep n rest := rfl

theorem leadCount_bt_cons (l : List Char) : leadCount (bt :: l) = leadCount l + 1 := by
  simp [leadCount]

theorem leadCount_cons_ne {c : Char} (l : List Char) (h : ¬ c = bt) :
    leadCount (c :: l) = 0 := by
  simp [leadCount, h]

theorem replaceFuel_fence : ∀ n : Nat, ∀ s : List Char, s.length ≤ n →
    ¬ fence <:+: replaceFuel fence [] n s ∧
      leadCount (replaceFuel fence [] n s) ≤ leadCount s := by
  intro n
  induction n with
  | zero =>
    intro s hs
    have hnil : s = [] := List.eq_nil_of_length_eq_zero (Nat.le_zero.mp hs)
    subst hnil
    constructor
    · rw [replaceFuel_nil, List.infix_nil]
      decide
    · exact Nat.le_refl _
  | succ n ih =>
    intro s hs
    match s with
    | [] =>
      constructor
      · rw [replaceFuel_nil, List.infix_nil]
        decide
      · exact Nat.le_refl _
    | c :: rest =>
      have hrest : rest.length ≤ n := by
        simp only [List.length_cons] at hs
        omega
      cases hp : fence.isPrefixOf (c :: rest) with
      | false =>
        have hres : replaceFuel fence [] (n + 1) (c :: rest) =
            c :: replaceFuel fence [] n rest := by
          rw [replaceFuel_succ_cons, hp]
          simp
        rw [hres]
        obtain ⟨ih1, ih2⟩ := ih rest hrest
        constructor
        · intro hinf
          rcases List.infix_cons_iff.mp hinf with hpref | htail
          · rcases fence_isPrefix_cons.mp hpref with ⟨hc, h2⟩
            have g1 : 2 ≤ leadCount (replaceFuel fence [] n rest) :=
              leadCount_two_of_isPrefix h2
            have g3 : ¬ [bt, bt] <+: rest := by
              intro hbb
              have hx : fence.isPrefixOf (c :: rest) = true :=
                (isPrefixOf_eq _ _).mpr (fence_isPrefix_cons.mpr ⟨hc, hbb⟩)
              rw [hp] at hx
              exact Bool.false_ne_true hx
            have g4 : leadCount rest < 2 := by
              by_contra hge
              exact g3 (isPrefix_two_of_leadCount rest (Nat.le_of_not_lt hge))
            omega
          · exact ih1 htail
        · by_cases hc : c = bt
          · subst hc
            rw [leadCount_bt_cons, leadCount_bt_cons]
            omega
          · rw [leadCount_cons_ne _ hc, leadCount_cons_ne _ hc]
      | true =>
        obtain ⟨t, ht⟩ := (isPrefixOf_eq fence (c :: rest)).mp hp
        have hlen : t.length ≤ n := by
          have hl := congrArg List.length ht
          simp only [List.length_append, fence_length_eq, List.length_cons] at hl
          omega
        have hres : replaceFuel fence [] (n + 1) (c :: rest) =
            replaceFuel fence [] n t := by
          rw [replaceFuel_succ_cons, hp, fence_isEmpty_eq, ← ht, List.drop_left]
          simp
        rw [hres]
        obtain ⟨ih1, ih2⟩ := ih t hlen
        refine ⟨ih1, ?_⟩
        have h2 : leadCount t ≤ leadCount (c :: rest) := by
          rw [← ht, fence_eq, List.cons_append, List.cons_append, List.cons_append,
            List.nil_append, leadCount_bt_cons, leadCount_bt_cons, leadCount_bt_cons]
          omega
        exact Nat.le_trans ih2 h2

theorem pyReplace_fence_no_fence (s : List Char) : ¬ fence <:+: pyReplace s fence [] :=
  (replaceFuel_fence s.length s (Nat.le_refl _)).1

theorem extractCode_eq_one {raw : List Char}
    (h : pythonFence.isPrefixOf (pyStrip raw) = true) :
    extractCode raw =
      pyStrip (pyReplace (pyReplace (pyStrip raw) pythonFence []) fence []) := by
  simp [extractCode, h]

theorem extractCode_eq_two {raw : List Char}
    (h1 : pythonFence.isPrefixOf (pyStrip raw) = false)
    (h2 : fence.isPrefixOf (pyStrip raw) = true) :
    extractCode raw = pyStrip (pyReplace (pyStrip raw) fence []) := by
  simp [extractCode, h1, h2]

theorem extractCode_eq_three {raw : List Char}
    (h1 : pythonFence.isPrefixOf (pyStrip raw) = false)
    (h2 : fence.isPrefixOf (pyStrip raw) = false) :
    extractCode raw = pyStrip raw := by
  simp [extractCode, h1, h2]

-- Claim theorems ------------------------------------------------------------

/-- C1: for every judge reply, the verdict's passed field is true if and only
if the reply, after trimming and upper-casing, contains the substring PASS;
when the reply contains neither PASS nor FAIL the same containment rule
applies and the verdict resolves to failed (there is no third state). -/
theorem C1_verdict_pass_iff (reply output query : List Char) :
    ((StaticEvaluator.evaluate reply output query).pass = true ↔
      passLit <:+: pyUpper (pyStrip reply)) ∧
    ((¬ passLit <:+: pyUpper (pyStrip reply)) ∧
        (¬ failLit <:+: pyUpper (pyStrip reply)) →
      (StaticEvaluator.evaluate reply output query).pass = false) := by
  constructor
  · show containsSub passLit (pyUpper (pyStrip reply)) = true ↔ _
    exact containsSub_iff _ _
  · rintro ⟨hn, _⟩
    show containsSub passLit (pyUpper (pyStrip reply)) = false
    cases hc : containsSub passLit (pyUpper (pyStrip reply)) with
    | false => rfl
    | true => exact absurd ((containsSub_iff _ _).mp hc) hn

/-- Witness for C1 at the concrete reply containing neither token. -/
theorem C1_witness :
    ((¬ passLit <:+: pyUpper (pyStrip replyNeither)) ∧
      (¬ failLit <:+: pyUpper (pyStrip replyNeither))) ∧
    (StaticEvaluator.evaluate replyNeither boomMsg defaultTask).pass = false :=
  ⟨⟨by decide, by decide⟩,
    (C1_verdict_pass_iff replyNeither boomMsg defaultTask).2 ⟨by decide, by decide⟩⟩

/-- C2 (amended): for every raw completion whose trimmed text starts with a
fence marker, the extracted source contains no triple-backtick fence substring
anywhere; for completions not starting with a fence the transform is the
identity on the trimmed text, so a mid-text fence survives (see the
counterexample). -/
theorem C2_fenced_extraction_fence_free (raw : List Char)
    (h : fence <+: pyStrip raw) : ¬ fence <:+: extractCode raw := by
  cases h1 : pythonFence.isPrefixOf (pyStrip raw) with
  | true =>
    rw [extractCode_eq_one h1]
    intro hf
    exact pyReplace_fence_no_fence _ (hf.trans (pyStrip_isInf _))
  | false =>
    rw [extractCode_eq_two h1 ((isPrefixOf_eq _ _).mpr h)]
    intro hf
    exact pyReplace_fence_no_fence _ (hf.trans (pyStrip_isInf _))

/-- Counterexample to C2 as stated: the raw completion a```b keeps its fence
marker through extraction, so the extracted source does contain a fence. -/
theorem C2_counterexample : fence <:+: extractCode rawMid := by decide

/-- Witness for C2: a fenced completion whose extraction is fence-free. -/
theorem C2_witness :
    fence <+: pyStrip rawFenced ∧ ¬ fence <:+: extractCode rawFenced :=
  ⟨by decide, C2_fenced_extraction_fence_free rawFenced (by decide)⟩

/-- C3 (amended): a fence-marker occurrence away from the start is guaranteed
untouched only when the trimmed reply does not start with a fence marker, in
which case extraction passes the trimmed text through unchanged; when the
trimmed reply does start with a fence marker, every occurrence of the marker
in the text is stripped, mid-text ones included (see the counterexample). -/
theorem C3_unfenced_extraction_id (raw : List Char)
    (h : ¬ fence <+: pyStrip raw) : extractCode raw = pyStrip raw := by
  have h2 : fence.isPrefixOf (pyStrip raw) = false := by
    cases hb : fence.isPrefixOf (pyStrip raw) with
    | false => rfl
    | true => exact absurd ((isPrefixOf_eq _ _).mp hb) h
  have h1 : pythonFence.isPrefixOf (pyStrip raw) = false := by
    cases hb : pythonFence.isPrefixOf (pyStrip raw) with
    | false => rfl
    | true =>
      exact absurd (fence_isPrefix_pythonFence.trans ((isPrefixOf_eq _ _).mp hb)) h
  exact extractCode_eq_three h1 h2

/-- Counterexample to C3 as stated: in a completion that opens with a fence,
the mid-text fence marker (present after the opening marker in the trimmed
input) is stripped by extraction rather than left untouched. -/
theorem C3_counterexample :
    fence <:+: (pyStrip rawMidFenced).drop 3 ∧
      ¬ fence <:+: extractCode rawMidFenced := by
  decide

/-- Witness for C3 at a completion with no fence marker at its start. -/
theorem C3_witness :
    (¬ fence <+: pyStrip rawPlain) ∧ extractCode rawPlain = pyStrip rawPlain :=
  ⟨by decide, C3_unfenced_extraction_id rawPlain (by decide)⟩

/-- C9: the extraction-and-trim transform of the code generator node is
idempotent: applying it to its own output changes nothing. -/
theorem C9_extract_idempotent (raw : List Char) :
    extractCode (extractCode raw) = extractCode raw := by
  have key : ∀ m : List Char, ¬ fence <:+: m → pyStrip m = m → extractCode m = m := by
    intro m hm ht
    have h1 : pythonFence.isPrefixOf m = false := by
      cases hb : pythonFence.isPrefixOf m with
      | false => rfl
      | true =>
        exact absurd (List.IsPrefix.isInfix
          (fence_isPrefix_pythonFence.trans ((isPrefixOf_eq _ _).mp hb))) hm
    have h2 : fence.isPrefixOf m = false := by
      cases hb : fence.isPrefixOf m with
      | false => rfl
      | true => exact absurd (List.IsPrefix.isInfix ((isPrefixOf_eq _ _).mp hb)) hm
    calc extractCode m = pyStrip m :=
        extractCode_eq_three (by rw [ht]; exact h1) (by rw [ht]; exact h2)
      _ = m := ht
  cases h1 : pythonFence.isPrefixOf (pyStrip raw) with
  | true =>
    rw [extractCode_eq_one h1]
    exact key _ (fun hf => pyReplace_fence_no_fence _ (hf.trans (pyStrip_isInf _)))
      (pyStrip_idem _)
  | false =>
    cases h2 : fence.isPrefixOf (pyStrip raw) with
    | true =>
      rw [extractCode_eq_two h1 h2]
      exact key _ (fun hf => pyReplace_fence_no_fence _ (hf.trans (pyStrip_isInf _)))
        (pyStrip_idem _)
    | false =>
      rw [extractCode_eq_three h1 h2]
      calc extractCode (pyStrip raw) = pyStrip (pyStrip raw) :=
          extractCode_eq_three (by rw [pyStrip_idem]; exact h1)
            (by rw [pyStrip_idem]; exact h2)
        _ = pyStrip raw := pyStrip_idem raw

/-- C10: the record returned by the judge carries both inputs through
unchanged, whatever the completion service replied. -/
theorem C10_evaluate_preserves_inputs (reply output query : List Char) :
    (StaticEvaluator.evaluate reply output query).output = output ∧
    (StaticEvaluator.evaluate reply output query).query = query :=
  ⟨rfl, rfl⟩

/-- C4: the runner is total by construction and converts every non-success
situation into a failed result: its result is successful exactly when the
artifact existed and the child completed normally with exit status zero, so a
missing file, a timeout, a spawn fault, or a nonzero exit all yield a returned
result with succeeded false rather than an exception. -/
theorem C4_run_code_success_iff (codeFile : List Char) (fileExists : Bool)
    (outcome : SpawnOutcome) :
    (run_code codeFile fileExists outcome).success = true ↔
      fileExists = true ∧ ∃ out err, outcome = SpawnOutcome.completed out err 0 := by
  cases fileExists <;> cases outcome <;> simp [run_code]

/-- C5: whenever execution does not succeed, the orchestrator skips the judge,
ends in the failed state with no verdict and removes the artifact; conversely
the judge is invoked only when execution succeeded. -/
theorem C5_failure_short_circuits (genResponse : List Char) (fileExists : Bool)
    (outcome : SpawnOutcome) (judgeResponse : List Char) :
    ((run_code defaultOutputFile fileExists outcome).success = false →
      (mainRun genResponse fileExists outcome judgeResponse).judgeInvoked = false ∧
      (mainRun genResponse fileExists outcome judgeResponse).failed = true ∧
      (mainRun genResponse fileExists outcome judgeResponse).verdict = none ∧
      (mainRun genResponse fileExists outcome judgeResponse).artifactRemoved = true) ∧
    ((mainRun genResponse fileExists outcome judgeResponse).judgeInvoked = true →
      (run_code defaultOutputFile fileExists outcome).success = true) := by
  constructor
  · intro h
    simp [mainRun, h]
  · intro h
    cases hs : (run_code defaultOutputFile fileExists outcome).success with
    | false => simp [mainRun, hs] at h
    | true => rfl

/-- Witness for C5 at a concrete spawn fault. -/
theorem C5_witness :
    (run_code defaultOutputFile true (SpawnOutcome.faulted boomMsg)).success = false ∧
    ((mainRun rawPlain true (SpawnOutcome.faulted boomMsg) passLit).judgeInvoked = false ∧
      (mainRun rawPlain true (SpawnOutcome.faulted boomMsg) passLit).failed = true ∧
      (mainRun rawPlain true (SpawnOutcome.faulted boomMsg) passLit).verdict = none ∧
      (mainRun rawPlain true (SpawnOutcome.faulted boomMsg) passLit).artifactRemoved
        = true) :=
  ⟨by decide,
    (C5_failure_short_circuits rawPlain true (SpawnOutcome.faulted boomMsg) passLit).1
      (by decide)⟩

/-- C6: on a missing artifact the runner fails immediately with a message
naming the missing file; the result does not depend on any child-process
outcome, which captures that no child is spawned. -/
theorem C6_missing_artifact (codeFile : List Char) (oc oc' : SpawnOutcome) :
    run_code codeFile false oc = run_code codeFile false oc' ∧
    (run_code codeFile false oc).success = false ∧
    (run_code codeFile false oc).stdout = [] ∧
    (run_code codeFile false oc).stderr = "File not found: ".data ++ codeFile ∧
    codeFile <:+ (run_code codeFile false oc).stderr := by
  refine ⟨rfl, rfl, rfl, rfl, ?_⟩
  show codeFile <:+ "File not found: ".data ++ codeFile
  exact List.suffix_append _ _

/-- C7: on a timeout the runner returns succeeded false with the
timeout-specific message and empty standard output. -/
theorem C7_timeout_result (codeFile : List Char) :
    run_code codeFile true SpawnOutcome.timedOut =
      { stdout := [], stderr := "Execution timed out".data, success := false } :=
  rfl

/-- Counterexample to C8 as stated: the generate operation is not free of side
effects; on a concrete input its effect list is nonempty. -/
theorem C8_counterexample :
    (CodingAgent.generate_code rawPlain defaultOutputFile).2 ≠ [] := by
  simp [CodingAgent.generate_code]

/-- C8 (amended): the graph node constructs the artifact purely in memory,
but the disk write of the extracted source to the artifact path is performed
inside the code generator's generate operation itself, before it returns, not
by the orchestrator: generate emits exactly that one write effect and returns
the node's pure result. -/
theorem C8_generate_code_performs_write (response outputFile : List Char) :
    (CodingAgent.generate_code response outputFile).2 =
      [Effect.fileWrite outputFile (extractCode response)] ∧
    (CodingAgent.generate_code response outputFile).1 =
      code_generator_node response outputFile :=
  ⟨rfl, rfl⟩
